import Mathlib

/-!
Shallow embedding of the GigaVector Python binding layer
(src/python/src/gigavector/_core.py) for verification.

The binding wraps a native shared library behind `cffi`.  Pure
conversion helpers (`_metadata_to_dict`, `_copy_vector`,
`_copy_sparse_vector`) are translated directly as Lean functions on
explicit representations of the C structures (a NULL pointer becomes
`none` / the empty list).  Wrapper methods that call into the native
library are translated as functions that take the native call's
outcome (return code `rc`, reported result count `n`, post-call result
buffer contents) as an explicit parameter — the native library is not
part of this repository, so its outputs are oracle inputs to the
wrapper — and return, alongside the Python-level result
(`Except GVError α` models raise-vs-return), the list of native
functions invoked, in invocation order.  Python `float` values are
modelled as `ℚ`; the claims settled here do not depend on rounding.
-/

namespace GigaVector

/-- Kinds of Python exceptions the wrapper raises. -/
inductive GVError
  | valueError
  | runtimeError
  deriving DecidableEq, Repr

/-- Names of native-library entry points the wrapper may invoke.
A wrapper call's returned trace lists them in invocation order. -/
inductive NCall
  | gv_db_add_vector
  | gv_db_add_vector_with_metadata
  | gv_db_add_vector_with_rich_metadata
  | gv_db_add_vectors
  | gv_db_update_vector
  | gv_db_search
  | gv_db_search_filtered
  | gv_db_search_batch
  | gv_db_range_search
  | gv_db_range_search_filtered
  | gv_db_save
  | gv_wal_truncate
  | gv_db_close
  | gv_db_ivfpq_train
  | gv_db_ivfflat_train
  | gv_db_pq_train
  | gv_db_set_deleted_ratio_threshold
  | gv_db_record_recall
  deriving DecidableEq, Repr

/-- One `GV_Metadata` node of the native linked list: `char *key` and
`char *value` pointers, each possibly NULL (`none`).  A chain is the
list of nodes in link order; the NULL chain is `[]`. -/
structure MetaPair where
  key : Option String
  value : Option String
  deriving DecidableEq, Repr

/-- Python-dict lookup on the insertion-ordered association list that
models a `dict[str, str]`. -/
def dictGet : List (String × String) → String → Option String
  | [], _ => none
  | p :: rest, k => if p.1 = k then some p.2 else dictGet rest k

/-- Python-dict assignment `out[key] = value`: update in place when the
key is present (keeping its position), append otherwise. -/
def dictInsert : List (String × String) → String → String → List (String × String)
  | [], k, v => [(k, v)]
  | p :: rest, k, v => if p.1 = k then (k, v) :: rest else p :: dictInsert rest k v

/-- One iteration of the `_metadata_to_dict` loop
(src/python/src/gigavector/_core.py:163-171): a NULL key or value
decodes to `""`; the pair is stored only when the key is non-empty
(`if key: out[key] = value`). -/
def metaStep (out : List (String × String)) (cur : MetaPair) :
    List (String × String) :=
  let key := cur.key.getD ""
  let value := cur.value.getD ""
  if key ≠ "" then dictInsert out key value else out

/-- `_metadata_to_dict` (src/python/src/gigavector/_core.py:150-172):
walk the chain in link order starting from the empty dict. -/
def metadata_to_dict (chain : List MetaPair) : List (String × String) :=
  chain.foldl metaStep []

/-- The Python `Vector` dataclass: copied-out data plus metadata dict. -/
structure Vector where
  data : List ℚ
  metadata : List (String × String)
  deriving DecidableEq, Repr

/-- The Python `SearchHit` dataclass. -/
structure SearchHit where
  distance : ℚ
  vector : Vector
  deriving DecidableEq, Repr

/-- A `GV_Vector` as seen through a (non-NULL) pointer: `size_t
dimension`, `float *data` (NULL becomes `none`; otherwise the buffer's
contents, holding at least `dimension` floats when well-formed), and
the metadata chain. -/
structure CVec where
  dimension : Nat
  data : Option (List ℚ)
  metadata : List MetaPair
  deriving DecidableEq, Repr

/-- One `GV_SparseEntry`: `uint32_t index`, `float value`. -/
structure CSparseEntry where
  index : Nat
  value : ℚ
  deriving DecidableEq, Repr

/-- A `GV_SparseVector` behind a non-NULL pointer: declared `nnz`, the
entry buffer, and the metadata chain. -/
structure CSparse where
  nnz : Nat
  entries : List CSparseEntry
  metadata : List MetaPair
  deriving DecidableEq, Repr

/-- A `GV_SearchResult` slot: vector / sparse-vector pointers (NULL =
`none`), the `is_sparse` flag, and the distance. -/
structure CSearchResult where
  vector : Option CVec
  sparse_vector : Option CSparse
  is_sparse : Bool
  distance : ℚ
  deriving DecidableEq, Repr

/-- A zero-initialized `GV_SearchResult` slot, as `ffi.new` produces:
NULL pointers, flag 0, distance 0.0. -/
def zeroResult : CSearchResult := ⟨none, none, false, 0⟩

/-- `_copy_vector` (src/python/src/gigavector/_core.py:175-198).  The
body sits in a `try` whose handler returns an empty `Vector`, so the
internal `raise ValueError` for an out-of-range dimension also lands
there.  Reading `data[i] for i in range(dim)` is `take dimension` of
the buffer contents. -/
def copy_vector : Option CVec → Vector
  | none => ⟨[], []⟩
  | some vec =>
    if vec.dimension ≤ 0 ∨ vec.dimension > 100000 then ⟨[], []⟩
    else if vec.dimension = 0 then ⟨[], []⟩
    else
      match vec.data with
      | none => ⟨[], []⟩
      | some d => ⟨d.take vec.dimension, metadata_to_dict vec.metadata⟩

/-- One iteration of the `_copy_sparse_vector` loop
(src/python/src/gigavector/_core.py:215-219): write
`data[idx] = value` guarded by `0 <= idx < dim` (`idx` is a
`uint32_t`, so only the upper bound matters). -/
def sparseStep (dim : Nat) (d : List ℚ) (ent : CSparseEntry) : List ℚ :=
  if ent.index < dim then d.set ent.index ent.value else d

/-- `_copy_sparse_vector` (src/python/src/gigavector/_core.py:201-221):
start from `[0.0] * dim`, then run the guarded write for each of the
first `nnz` entries of the buffer. -/
def copy_sparse_vector (sv : Option CSparse) (dim : Nat) : Vector :=
  match sv with
  | none => ⟨[], []⟩
  | some s =>
    let data := (s.entries.take s.nnz).foldl (sparseStep dim)
      (List.replicate dim 0)
    ⟨data, metadata_to_dict s.metadata⟩

/-- The wrapper's `Database` object state relevant to lifecycle claims:
the fixed dimension and the `_closed` flag set by `close`. -/
structure Database where
  dimension : Nat
  closed : Bool
  deriving DecidableEq, Repr

/-- `Database.close` (src/python/src/gigavector/_core.py:363-368):
return immediately when already closed; otherwise invoke
`gv_db_close` once and set the flag. -/
def Database.close (db : Database) : Database × List NCall :=
  if db.closed then (db, [])
  else ({ db with closed := true }, [NCall.gv_db_close])

/-- `Database.__exit__` (src/python/src/gigavector/_core.py:704-710):
delegates to `close`. -/
def Database.exitContext (db : Database) : Database × List NCall :=
  db.close

/-- `Database.__del__` (src/python/src/gigavector/_core.py:1169-1174):
calls `close` inside `try ... except Exception: pass`; `close` itself
raises nothing, so the behaviour is exactly `close`. -/
def Database.del (db : Database) : Database × List NCall :=
  db.close

/-- `Database.save` (src/python/src/gigavector/_core.py:383-398).
`rc` is what `gv_db_save` returns; `walNonNull` is whether
`self._db.wal != ffi.NULL`.  On `rc != 0` a `RuntimeError` is raised
before any truncate; on success the (duplicated) guarded
`gv_wal_truncate` call runs twice. -/
def Database.save (rc : Int) (walNonNull : Bool) :
    Except GVError Unit × List NCall :=
  if rc ≠ 0 then (.error .runtimeError, [NCall.gv_db_save])
  else
    (.ok (),
      [NCall.gv_db_save]
        ++ (if walNonNull then [NCall.gv_wal_truncate] else [])
        ++ (if walNonNull then [NCall.gv_wal_truncate] else []))

/-- `Database._check_dimension` (src/python/src/gigavector/_core.py:712-714). -/
def check_dimension (dim : Nat) (vec : List ℚ) : Except GVError Unit :=
  if vec.length ≠ dim then .error .valueError else .ok ()

/-- `Database.add_vector` (src/python/src/gigavector/_core.py:716-756):
dimension check first, then one of three native inserts depending on
how many metadata pairs were supplied (`None`/`{}` both take the
plain path); `rc` is the chosen native call's return code. -/
def add_vector (dim : Nat) (vector : List ℚ)
    (metadata : List (String × String)) (rc : Int) :
    Except GVError Unit × List NCall :=
  if vector.length ≠ dim then (.error .valueError, [])
  else if metadata.isEmpty then
    if rc ≠ 0 then (.error .runtimeError, [NCall.gv_db_add_vector])
    else (.ok (), [NCall.gv_db_add_vector])
  else if metadata.length = 1 then
    if rc ≠ 0 then (.error .runtimeError, [NCall.gv_db_add_vector_with_metadata])
    else (.ok (), [NCall.gv_db_add_vector_with_metadata])
  else
    if rc ≠ 0 then (.error .runtimeError, [NCall.gv_db_add_vector_with_rich_metadata])
    else (.ok (), [NCall.gv_db_add_vector_with_rich_metadata])

/-- `Database.update_vector` (src/python/src/gigavector/_core.py:790-805):
dimension check first, then `gv_db_update_vector`. -/
def update_vector (dim : Nat) (vector_index : Nat) (new_data : List ℚ)
    (rc : Int) : Except GVError Unit × List NCall :=
  if new_data.length ≠ dim then (.error .valueError, [])
  else if rc ≠ 0 then (.error .runtimeError, [NCall.gv_db_update_vector])
  else (.ok (), [NCall.gv_db_update_vector])

/-- `Database.add_vectors` (src/python/src/gigavector/_core.py:758-775):
flatten the batch, compute `count = len(data) // dimension` (0 when the
dimension is 0), raise `ValueError` unless `count * dimension` recovers
the flattened length, then forward to `gv_db_add_vectors`. -/
def add_vectors (dim : Nat) (vectors : List (List ℚ)) (rc : Int) :
    Except GVError Unit × List NCall :=
  let data := vectors.flatten
  let count := if dim ≠ 0 then data.length / dim else 0
  if count * dim ≠ data.length then (.error .valueError, [])
  else if rc ≠ 0 then (.error .runtimeError, [NCall.gv_db_add_vectors])
  else (.ok (), [NCall.gv_db_add_vectors])

/-- `Database.train_ivfpq` (src/python/src/gigavector/_core.py:428-449):
reject empty data, a flattened length not divisible by the vector
count, and an integer-division quotient differing from the database
dimension; otherwise call `gv_db_ivfpq_train`. -/
def train_ivfpq (dim : Nat) (data : List (List ℚ)) (rc : Int) :
    Except GVError Unit × List NCall :=
  let flat := data.flatten
  let count := data.length
  if count = 0 then (.error .valueError, [])
  else if flat.length % count ≠ 0 then (.error .valueError, [])
  else if flat.length / count ≠ dim then (.error .valueError, [])
  else if rc ≠ 0 then (.error .runtimeError, [NCall.gv_db_ivfpq_train])
  else (.ok (), [NCall.gv_db_ivfpq_train])

/-- `Database.train_ivfflat` (src/python/src/gigavector/_core.py:451-464):
same validation but the quotient is Python float division
`len(flat) / count`, modelled exactly over `ℚ`. -/
def train_ivfflat (dim : Nat) (data : List (List ℚ)) (rc : Int) :
    Except GVError Unit × List NCall :=
  let flat := data.flatten
  let count := data.length
  if count = 0 then (.error .valueError, [])
  else if flat.length % count ≠ 0 then (.error .valueError, [])
  else if (flat.length : ℚ) / (count : ℚ) ≠ (dim : ℚ) then (.error .valueError, [])
  else if rc ≠ 0 then (.error .runtimeError, [NCall.gv_db_ivfflat_train])
  else (.ok (), [NCall.gv_db_ivfflat_train])

/-- `Database.train_pq` (src/python/src/gigavector/_core.py:466-479):
identical validation to `train_ivfflat`, forwarding to
`gv_db_pq_train`. -/
def train_pq (dim : Nat) (data : List (List ℚ)) (rc : Int) :
    Except GVError Unit × List NCall :=
  let flat := data.flatten
  let count := data.length
  if count = 0 then (.error .valueError, [])
  else if flat.length % count ≠ 0 then (.error .valueError, [])
  else if (flat.length : ℚ) / (count : ℚ) ≠ (dim : ℚ) then (.error .valueError, [])
  else if rc ≠ 0 then (.error .runtimeError, [NCall.gv_db_pq_train])
  else (.ok (), [NCall.gv_db_pq_train])

/-- `Database.set_deleted_ratio_threshold`
(src/python/src/gigavector/_core.py:533-544). -/
def set_deleted_ratio_threshold (r : ℚ) : Except GVError Unit × List NCall :=
  if r < 0 ∨ r > 1 then (.error .valueError, [])
  else (.ok (), [NCall.gv_db_set_deleted_ratio_threshold])

/-- `Database.record_recall` (src/python/src/gigavector/_core.py:690-699). -/
def record_recall (r : ℚ) : Except GVError Unit × List NCall :=
  if r < 0 ∨ r > 1 then (.error .valueError, [])
  else (.ok (), [NCall.gv_db_record_recall])

/-- The copy-out step of `Database.search`'s result loop
(src/python/src/gigavector/_core.py:843-857): a sparse slot is
appended only when its sparse pointer is non-NULL, a dense slot only
when its vector pointer is non-NULL; `_copy_vector` and
`_copy_sparse_vector` never raise, so the `except: continue` arm is
unreachable. -/
def copyHit (dim : Nat) (res : CSearchResult) : Option SearchHit :=
  if res.is_sparse then
    match res.sparse_vector with
    | some sv => some ⟨res.distance, copy_sparse_vector (some sv) dim⟩
    | none => none
  else
    match res.vector with
    | some v => some ⟨res.distance, copy_vector (some v)⟩
    | none => none

/-- `Database.search` (src/python/src/gigavector/_core.py:831-857).
`k` sizes the zero-initialized result buffer; `n` is what the native
search returns; `results` is the buffer contents after the call (the
native contract fills at most `k` slots, read as `results[i]` for
`i < n`).  `filt` selects `gv_db_search_filtered` vs `gv_db_search`. -/
def search (dim : Nat) (query : List ℚ) (k : Nat)
    (filt : Option (String × String)) (n : Int)
    (results : List CSearchResult) :
    Except GVError (List SearchHit) × List NCall :=
  if query.length ≠ dim then (.error .valueError, [])
  else
    let call := match filt with
      | some _ => NCall.gv_db_search_filtered
      | none => NCall.gv_db_search
    if n < 0 then (.error .runtimeError, [call])
    else (.ok ((results.take n.toNat).filterMap (copyHit dim)), [call])

/-- `Database.range_search` (src/python/src/gigavector/_core.py:935-967):
dimension check, then radius and `max_results` validation, all before
the native call; a negative reported count raises `RuntimeError`,
otherwise the first `n` slots are copied out unconditionally through
`_copy_vector`. -/
def range_search (dim : Nat) (query : List ℚ) (radius : ℚ)
    (max_results : Int) (filt : Option (String × String)) (n : Int)
    (results : List CSearchResult) :
    Except GVError (List SearchHit) × List NCall :=
  if query.length ≠ dim then (.error .valueError, [])
  else if radius < 0 then (.error .valueError, [])
  else if max_results ≤ 0 then (.error .valueError, [])
  else
    let call := match filt with
      | some _ => NCall.gv_db_range_search_filtered
      | none => NCall.gv_db_range_search
    if n < 0 then (.error .runtimeError, [call])
    else
      (.ok ((results.take n.toNat).map
        (fun r => SearchHit.mk r.distance (copy_vector r.vector))), [call])

/-- `Database.search_batch` (src/python/src/gigavector/_core.py:969-989).
An empty query list returns `[]` with no native call.  Otherwise every
query is dimension-checked, a zero-initialized buffer of
`len(queries) * k` slots is passed to `gv_db_search_batch`, and after
a non-negative return the wrapper reads `results[qi * k + hi]` for
every `qi < len(queries)` and `hi < k` — unconditionally, with no
null-pointer or reported-count check (`_copy_vector` turns a NULL slot
into an empty vector).  `results` is the buffer contents after the
native call; a slot the native code never wrote stays `zeroResult`. -/
def search_batch (dim : Nat) (queries : List (List ℚ)) (k : Nat)
    (n : Int) (results : List CSearchResult) :
    Except GVError (List (List SearchHit)) × List NCall :=
  if queries.isEmpty then (.ok [], [])
  else if queries.any (fun q => q.length ≠ dim) then (.error .valueError, [])
  else if n < 0 then (.error .runtimeError, [NCall.gv_db_search_batch])
  else
    (.ok ((List.range queries.length).map (fun qi =>
      (List.range k).map (fun hi =>
        let res := results.getD (qi * k + hi) zeroResult
        SearchHit.mk res.distance (copy_vector res.vector)))),
      [NCall.gv_db_search_batch])

/-- The value of the last pair in a metadata chain whose decoded key is
`k` (NULL key decodes to `""`, NULL value to `""`), if any.  Later
nodes shadow earlier ones, matching last-write-wins dict assignment. -/
def lastValueFor : List MetaPair → String → Option String
  | [], _ => none
  | p :: rest, k =>
    match lastValueFor rest k with
    | some v => some v
    | none => if p.key.getD "" = k then some (p.value.getD "") else none

/-- The value of the last sparse entry whose index is `p`, if any. -/
def lastSparseValue : List CSparseEntry → Nat → Option ℚ
  | [], _ => none
  | e :: rest, p =>
    match lastSparseValue rest p with
    | some v => some v
    | none => if e.index = p then some e.value else none

/-- The exact condition under which the three `train_*` validations
accept a batch: a non-empty list whose total flattened length is a
multiple of the vector count with quotient equal to the database
dimension.  Note this does NOT require the individual vectors to have
equal lengths. -/
def train_data_ok (dim : Nat) (data : List (List ℚ)) : Prop :=
  data.length ≠ 0 ∧ data.flatten.length % data.length = 0
    ∧ data.flatten.length / data.length = dim

instance train_data_ok_dec (dim : Nat) (data : List (List ℚ)) :
    Decidable (train_data_ok dim data) := by
  unfold train_data_ok
  exact inferInstance

/-! ## Helper lemmas -/

/-- Lookup after a Python-dict assignment: the assigned key now maps to
the assigned value and every other key is unchanged. -/
theorem dictGet_dictInsert (d : List (String × String)) (k v k' : String) :
    dictGet (dictInsert d k v) k' = if k' = k then some v else dictGet d k' := by
  induction d with
  | nil =>
    by_cases h : k' = k
    · simp [dictInsert, dictGet, h]
    · simp [dictInsert, dictGet, h, Ne.symm h]
  | cons p rest ih =>
    by_cases hp : p.1 = k
    · by_cases h : k' = k
      · simp [dictInsert, dictGet, hp, h]
      · have h2 : ¬ k = k' := fun hh => h (Eq.symm hh)
        simp [dictInsert, dictGet, hp, h, h2]
    · by_cases h : k' = k
      · subst h
        simp [dictInsert, dictGet, hp, ih]
      · simp [dictInsert, dictGet, hp, h, ih]

/-- Folding `metaStep` over a chain: for a non-empty key `k`, the
result maps `k` to the last occurrence in the chain, falling back to
the accumulator when `k` never occurs. -/
theorem dictGet_foldl_metaStep (k : String) (hk : k ≠ "") (chain : List MetaPair) :
    ∀ acc, dictGet (chain.foldl metaStep acc) k =
      (lastValueFor chain k).elim (dictGet acc k) some := by
  induction chain with
  | nil => intro acc; rfl
  | cons p rest ih =>
    intro acc
    show dictGet (rest.foldl metaStep (metaStep acc p)) k = _
    rw [ih]
    cases hm : lastValueFor rest k with
    | some v => simp [lastValueFor, hm]
    | none =>
      simp only [lastValueFor, hm, Option.elim]
      by_cases hkey : p.key.getD "" = ""
      · have h0 : ¬ ("" = k) := fun hh => hk (Eq.symm hh)
        have hstep : metaStep acc p = acc := by simp [metaStep, hkey]
        rw [hstep, hkey, if_neg h0]
      · rw [show metaStep acc p = dictInsert acc (p.key.getD "") (p.value.getD "")
            from by simp [metaStep, hkey]]
        rw [dictGet_dictInsert]
        by_cases hkk : p.key.getD "" = k
        · rw [if_pos (Eq.symm hkk), if_pos hkk]
        · rw [if_neg (fun hh => hkk (Eq.symm hh)), if_neg hkk]

/-- Folding `metaStep` never introduces the empty key. -/
theorem dictGet_foldl_metaStep_empty (chain : List MetaPair) :
    ∀ acc, dictGet acc "" = none →
      dictGet (chain.foldl metaStep acc) "" = none := by
  induction chain with
  | nil => intro acc h; exact h
  | cons p rest ih =>
    intro acc h
    refine ih _ ?_
    by_cases hkey : p.key.getD "" = ""
    · simpa [metaStep, hkey] using h
    · rw [show metaStep acc p = dictInsert acc (p.key.getD "") (p.value.getD "")
          from by simp [metaStep, hkey]]
      rw [dictGet_dictInsert, if_neg (fun hh => hkey (Eq.symm hh))]
      exact h

/-- Folding `sparseStep` preserves the length of the dense buffer. -/
theorem length_foldl_sparseStep (dim : Nat) (entries : List CSparseEntry) :
    ∀ init : List ℚ, (entries.foldl (sparseStep dim) init).length = init.length := by
  induction entries with
  | nil => intro init; rfl
  | cons e rest ih =>
    intro init
    show (rest.foldl (sparseStep dim) (sparseStep dim init e)).length = _
    rw [ih]
    unfold sparseStep
    split <;> simp

/-- Folding `sparseStep` writes, at each in-range position, the value
of the last entry targeting that position (falling back to the initial
buffer). -/
theorem getD_foldl_sparseStep (dim : Nat) (entries : List CSparseEntry)
    (p : Nat) (hp : p < dim) :
    ∀ init : List ℚ, init.length = dim →
      (entries.foldl (sparseStep dim) init).getD p 0 =
        (lastSparseValue entries p).elim (init.getD p 0) id := by
  induction entries with
  | nil => intro init _; rfl
  | cons e rest ih =>
    intro init hlen
    show (rest.foldl (sparseStep dim) (sparseStep dim init e)).getD p 0 = _
    have hlen' : (sparseStep dim init e).length = dim := by
      unfold sparseStep; split <;> simp [hlen]
    rw [ih _ hlen']
    cases hm : lastSparseValue rest p with
    | some v => simp [lastSparseValue, hm]
    | none =>
      simp only [lastSparseValue, hm, Option.elim]
      by_cases hi : e.index < dim
      · have hset : (sparseStep dim init e).getD p 0 =
            if e.index = p then e.value else init.getD p 0 := by
          unfold sparseStep
          rw [if_pos hi]
          rw [List.getD_eq_getElem?_getD, List.getElem?_set]
          by_cases he : e.index = p
          · simp [he, hlen, hp]
          · simp [he, List.getD_eq_getElem?_getD]
        rw [hset]
        by_cases he : e.index = p <;> simp [he]
      · have he : ¬ e.index = p := fun hh => hi (hh ▸ hp)
        simp [sparseStep, hi, he]

/-- A batch of equal-length vectors flattens to `count * dim` scalars. -/
theorem flatten_length_of_all_eq (dim : Nat) (vectors : List (List ℚ))
    (hall : ∀ v ∈ vectors, v.length = dim) :
    vectors.flatten.length = vectors.length * dim := by
  induction vectors with
  | nil => simp
  | cons a l ih =>
    have ha : a.length = dim := hall a (by simp)
    have hl : ∀ v ∈ l, v.length = dim := fun v hv => hall v (by simp [hv])
    simp only [List.flatten_cons, List.length_append, List.length_cons, ha, ih hl]
    rw [Nat.succ_mul]
    omega

/-- Python float division `len(flat) / count == dimension` agrees with
the integer division used by `train_ivfpq` once the modulo check has
passed (the quotient is exact). -/
theorem ratDiv_eq_iff_natDiv (L c d : Nat) (hc : c ≠ 0) (hmod : L % c = 0) :
    ((L : ℚ) / (c : ℚ) = (d : ℚ)) ↔ L / c = d := by
  have hdvd : c ∣ L := Nat.dvd_of_mod_eq_zero hmod
  have hc' : (c : ℚ) ≠ 0 := Nat.cast_ne_zero.mpr hc
  rw [div_eq_iff hc']
  constructor
  · intro h
    have hL : L = d * c := by
      have : (L : ℚ) = ((d * c : Nat) : ℚ) := by push_cast; exact h
      exact Nat.cast_inj.mp this
    rw [hL, Nat.mul_div_cancel _ (Nat.pos_of_ne_zero hc)]
  · intro h
    have hL : L = d * c := by rw [← h]; exact (Nat.div_mul_cancel hdvd).symm
    rw [hL]
    push_cast
    ring

/-! ## Claim theorems -/

/-- C1: on a database of dimension `D`, `add_vector`, `update_vector`
and `search` each run `_check_dimension` first, so a vector or query
whose length differs from `D` raises `ValueError` with no native call
made — hence no state mutated. -/
theorem dimension_mismatch_rejected (dim : Nat) (v : List ℚ)
    (md : List (String × String)) (rc : Int) (idx : Nat) (q : List ℚ)
    (k : Nat) (filt : Option (String × String)) (n : Int)
    (results : List CSearchResult)
    (hv : v.length ≠ dim) (hq : q.length ≠ dim) :
    add_vector dim v md rc = (Except.error GVError.valueError, [])
    ∧ update_vector dim idx v rc = (Except.error GVError.valueError, [])
    ∧ search dim q k filt n results = (Except.error GVError.valueError, []) := by
  refine ⟨?_, ?_, ?_⟩ <;> simp [add_vector, update_vector, search, hv, hq]

theorem dimension_mismatch_rejected_witness :
    (List.length [(1 : ℚ)] ≠ 2 ∧ List.length [(1 : ℚ), 2, 3] ≠ 2)
    ∧ (add_vector 2 [(1 : ℚ)] [] 0 = (Except.error GVError.valueError, [])
      ∧ update_vector 2 0 [(1 : ℚ)] 0 = (Except.error GVError.valueError, [])
      ∧ search 2 [(1 : ℚ), 2, 3] 5 none 0 [] = (Except.error GVError.valueError, [])) :=
  ⟨⟨by decide, by decide⟩,
    dimension_mismatch_rejected 2 [(1 : ℚ)] [] 0 0 [(1 : ℚ), 2, 3] 5 none 0 []
      (by decide) (by decide)⟩

/-- C3: `save` truncates the WAL exactly when the native save returns
0 and the WAL handle is non-null; a non-zero save raises
`RuntimeError` with no truncate; a successful save with a WAL runs the
truncate after `gv_db_save` — twice, which is why truncation must be
idempotent. -/
theorem save_truncate_contract (rc : Int) (w : Bool) :
    (NCall.gv_wal_truncate ∈ (Database.save rc w).2 ↔ rc = 0 ∧ w = true)
    ∧ ((Database.save rc w).1 = Except.error GVError.runtimeError ↔ rc ≠ 0)
    ∧ ((Database.save rc w).2 =
        if rc = 0 ∧ w = true then
          [NCall.gv_db_save, NCall.gv_wal_truncate, NCall.gv_wal_truncate]
        else [NCall.gv_db_save])
    ∧ (Database.save rc w).2.head? = some NCall.gv_db_save := by
  by_cases h : rc = 0 <;> by_cases hw : w = true <;>
    simp [Database.save, h, hw]

/-- C6: `close` is idempotent — the first call invokes `gv_db_close`
once and marks the handle closed; later `close`, `__exit__` and
`__del__` calls make no native call (and `__exit__`/`__del__` just
delegate to `close`). -/
theorem close_idempotent (db : Database) :
    Database.close ⟨db.dimension, false⟩ =
      (⟨db.dimension, true⟩, [NCall.gv_db_close])
    ∧ Database.close ⟨db.dimension, true⟩ = (⟨db.dimension, true⟩, [])
    ∧ db.close.1.closed = true
    ∧ db.close.1.close.2 = []
    ∧ db.close.1.exitContext.2 = []
    ∧ db.close.1.del.2 = []
    ∧ db.exitContext = db.close
    ∧ db.del = db.close := by
  unfold Database.exitContext Database.del
  by_cases h : db.closed = true <;>
    simp [Database.close, h]

/-- C8: `_metadata_to_dict` is a total function of the chain (so it
terminates on every acyclic chain); each non-empty key that occurs
maps to the value of its last occurrence (a NULL value decoding to
`""`), pairs whose key is NULL or empty are dropped (the empty key is
never present), and the NULL chain yields the empty dict. -/
theorem metadata_to_dict_last_occurrence (chain : List MetaPair)
    (k : String) (hk : k ≠ "") :
    metadata_to_dict ([] : List MetaPair) = []
    ∧ dictGet (metadata_to_dict chain) k = lastValueFor chain k
    ∧ dictGet (metadata_to_dict chain) "" = none := by
  refine ⟨rfl, ?_, ?_⟩
  · rw [metadata_to_dict, dictGet_foldl_metaStep k hk chain []]
    cases lastValueFor chain k <;> rfl
  · exact dictGet_foldl_metaStep_empty chain [] rfl

theorem metadata_to_dict_last_occurrence_witness :
    ("a" : String) ≠ ""
    ∧ (metadata_to_dict ([] : List MetaPair) = []
      ∧ dictGet (metadata_to_dict
          [⟨some "a", some "1"⟩, ⟨none, some "x"⟩, ⟨some "a", some "2"⟩]) "a"
        = lastValueFor
            [⟨some "a", some "1"⟩, ⟨none, some "x"⟩, ⟨some "a", some "2"⟩] "a"
      ∧ dictGet (metadata_to_dict
          [⟨some "a", some "1"⟩, ⟨none, some "x"⟩, ⟨some "a", some "2"⟩]) ""
        = none) :=
  ⟨by decide,
    metadata_to_dict_last_occurrence
      [⟨some "a", some "1"⟩, ⟨none, some "x"⟩, ⟨some "a", some "2"⟩] "a" (by decide)⟩

/-- C9: `_copy_sparse_vector` returns a dense vector of exactly `dim`
elements; each position `p < dim` holds the value of the last of the
first `nnz` declared entries whose index is `p`, and `0.0` when no
entry targets it.  Together with the fixed length this shows every
out-of-range entry is ignored (there is no position it could write);
a NULL sparse pointer yields the empty vector. -/
theorem copy_sparse_vector_dense (s : CSparse) (dim p : Nat) (hp : p < dim) :
    (copy_sparse_vector (some s) dim).data.length = dim
    ∧ (copy_sparse_vector (some s) dim).data.getD p 0 =
        (lastSparseValue (s.entries.take s.nnz) p).getD 0
    ∧ copy_sparse_vector none dim = ⟨[], []⟩ := by
  refine ⟨?_, ?_, rfl⟩
  · show ((s.entries.take s.nnz).foldl (sparseStep dim)
      (List.replicate dim 0)).length = dim
    rw [length_foldl_sparseStep, List.length_replicate]
  · show ((s.entries.take s.nnz).foldl (sparseStep dim)
      (List.replicate dim 0)).getD p 0 = _
    rw [getD_foldl_sparseStep dim _ p hp _ (List.length_replicate ..)]
    have h0 : (List.replicate dim (0 : ℚ)).getD p 0 = 0 := by
      rw [List.getD_eq_getElem?_getD, List.getElem?_replicate]
      simp [hp]
    rw [h0]
    cases lastSparseValue (s.entries.take s.nnz) p <;> rfl

theorem copy_sparse_vector_dense_witness :
    (0 : Nat) < 3
    ∧ ((copy_sparse_vector (some ⟨2, [⟨0, 5⟩, ⟨7, 9⟩], []⟩) 3).data.length = 3
      ∧ (copy_sparse_vector (some ⟨2, [⟨0, 5⟩, ⟨7, 9⟩], []⟩) 3).data.getD 0 0 =
          (lastSparseValue (List.take 2 [⟨0, 5⟩, ⟨7, 9⟩]) 0).getD 0
      ∧ copy_sparse_vector none 3 = ⟨[], []⟩) :=
  ⟨by decide, copy_sparse_vector_dense ⟨2, [⟨0, 5⟩, ⟨7, 9⟩], []⟩ 3 0 (by decide)⟩

/-- C2 counterexample: a batch containing a vector of the wrong length
(here `[1]` in a dimension-2 database) does NOT raise `ValueError`
when the total flattened length happens to be a multiple of the
dimension — the batch is forwarded to `gv_db_add_vectors` and the call
succeeds. -/
theorem add_vectors_mixed_batch_forwarded :
    List.length [(1 : ℚ)] ≠ 2
    ∧ add_vectors 2 [[(1 : ℚ)], [(2 : ℚ), 3, 4]] 0
        = (Except.ok (), [NCall.gv_db_add_vectors]) :=
  ⟨by decide, rfl⟩

/-- C2 amended: `add_vectors` validates only the flattened batch — for
a positive dimension `D` it raises `ValueError` (before any native
call) exactly when `D` does not divide the total number of scalars;
any batch of all-`D`-length vectors passes, but so does a mixed-length
batch whose total is a multiple of `D`, which is forwarded to
`gv_db_add_vectors` as `total / D` rows. -/
theorem add_vectors_flat_validation (dim : Nat) (vectors : List (List ℚ))
    (rc : Int) (hd : 0 < dim) :
    ((add_vectors dim vectors rc).1 = Except.error GVError.valueError
      ↔ ¬ dim ∣ vectors.flatten.length)
    ∧ ((add_vectors dim vectors rc).2 =
        if dim ∣ vectors.flatten.length then [NCall.gv_db_add_vectors] else [])
    ∧ ((∀ v ∈ vectors, v.length = dim) → dim ∣ vectors.flatten.length) := by
  have hdim : dim ≠ 0 := Nat.pos_iff_ne_zero.mp hd
  have hiff : vectors.flatten.length / dim * dim = vectors.flatten.length
      ↔ dim ∣ vectors.flatten.length := by
    constructor
    · intro h
      exact ⟨vectors.flatten.length / dim, by rw [Nat.mul_comm]; exact h.symm⟩
    · intro h
      exact Nat.div_mul_cancel h
  by_cases h : dim ∣ vectors.flatten.length
  · have heq : (if dim ≠ 0 then vectors.flatten.length / dim else 0) * dim
        = vectors.flatten.length := by
      rw [if_pos hdim]
      exact hiff.mpr h
    refine ⟨?_, ?_, fun _ => h⟩
    · simp only [add_vectors]
      rw [if_neg (fun hh => hh heq)]
      by_cases hrc : rc = 0
      · rw [if_neg (fun hh : rc ≠ 0 => hh hrc)]
        exact iff_of_false (fun hh => Except.noConfusion hh) (fun hh => hh h)
      · rw [if_pos hrc]
        exact iff_of_false
          (fun hh => GVError.noConfusion (Except.error.inj hh)) (fun hh => hh h)
    · simp only [add_vectors]
      rw [if_neg (fun hh => hh heq), if_pos h]
      by_cases hrc : rc = 0
      · rw [if_neg (fun hh : rc ≠ 0 => hh hrc)]
      · rw [if_pos hrc]
  · have hne : (if dim ≠ 0 then vectors.flatten.length / dim else 0) * dim
        ≠ vectors.flatten.length := by
      rw [if_pos hdim]
      exact fun hh => h (hiff.mp hh)
    refine ⟨?_, ?_, ?_⟩
    · simp only [add_vectors]
      rw [if_pos hne]
      exact iff_of_true rfl h
    · simp only [add_vectors]
      rw [if_pos hne, if_neg h]
    · intro hall
      rw [flatten_length_of_all_eq dim vectors hall]
      exact dvd_mul_left dim vectors.length

theorem add_vectors_flat_validation_witness :
    (0 : Nat) < 2
    ∧ (((add_vectors 2 [[(1 : ℚ), 2]] 0).1 = Except.error GVError.valueError
        ↔ ¬ 2 ∣ ([[(1 : ℚ), 2]] : List (List ℚ)).flatten.length)
      ∧ ((add_vectors 2 [[(1 : ℚ), 2]] 0).2 =
          if 2 ∣ ([[(1 : ℚ), 2]] : List (List ℚ)).flatten.length
          then [NCall.gv_db_add_vectors] else [])
      ∧ ((∀ v ∈ ([[(1 : ℚ), 2]] : List (List ℚ)), v.length = 2)
          → 2 ∣ ([[(1 : ℚ), 2]] : List (List ℚ)).flatten.length)) :=
  ⟨by decide, add_vectors_flat_validation 2 [[(1 : ℚ), 2]] 0 (by decide)⟩

/-- C4 counterexample: training data of unequal-length vectors (here
`[1]` and `[1,2,3]` in a dimension-2 database) does NOT raise
`ValueError` in any of the three train wrappers — the total length 4
is divisible by the count 2 with quotient 2, so the malformed batch is
forwarded to the native train call. -/
theorem train_unequal_lengths_forwarded :
    List.length [(1 : ℚ)] ≠ 2
    ∧ train_ivfpq 2 [[(1 : ℚ)], [(1 : ℚ), 2, 3]] 0
        = (Except.ok (), [NCall.gv_db_ivfpq_train])
    ∧ train_ivfflat 2 [[(1 : ℚ)], [(1 : ℚ), 2, 3]] 0
        = (Except.ok (), [NCall.gv_db_ivfflat_train])
    ∧ train_pq 2 [[(1 : ℚ)], [(1 : ℚ), 2, 3]] 0
        = (Except.ok (), [NCall.gv_db_pq_train]) := by
  refine ⟨by decide, rfl, ?_, ?_⟩
  · norm_num [train_ivfflat]
  · norm_num [train_pq]

/-- C4 amended: each of `train_ivfpq`, `train_ivfflat`, `train_pq`
raises `ValueError` — always before the native train call — exactly
when the batch is empty, the total flattened length is not divisible
by the vector count, or the quotient differs from the database
dimension (`train_data_ok`); empty data and all-equal-length
mismatched data are therefore rejected, but unequal-length vectors
totalling `count * dimension` pass validation and reach the native
train function. -/
theorem train_validation_contract (dim : Nat) (data : List (List ℚ)) (rc : Int) :
    ((train_ivfpq dim data rc).1 = Except.error GVError.valueError
      ↔ ¬ train_data_ok dim data)
    ∧ ((train_ivfflat dim data rc).1 = Except.error GVError.valueError
      ↔ ¬ train_data_ok dim data)
    ∧ ((train_pq dim data rc).1 = Except.error GVError.valueError
      ↔ ¬ train_data_ok dim data)
    ∧ ((train_ivfpq dim data rc).2 =
        if train_data_ok dim data then [NCall.gv_db_ivfpq_train] else [])
    ∧ ((train_ivfflat dim data rc).2 =
        if train_data_ok dim data then [NCall.gv_db_ivfflat_train] else [])
    ∧ ((train_pq dim data rc).2 =
        if train_data_ok dim data then [NCall.gv_db_pq_train] else []) := by
  by_cases h1 : data.length = 0
  · have hok : ¬ train_data_ok dim data := fun hh => hh.1 h1
    have e1 : train_ivfpq dim data rc = (Except.error GVError.valueError, []) := by
      simp only [train_ivfpq]
      rw [if_pos h1]
    have e2 : train_ivfflat dim data rc = (Except.error GVError.valueError, []) := by
      simp only [train_ivfflat]
      rw [if_pos h1]
    have e3 : train_pq dim data rc = (Except.error GVError.valueError, []) := by
      simp only [train_pq]
      rw [if_pos h1]
    refine ⟨?_, ?_, ?_, ?_, ?_, ?_⟩ <;> simp [e1, e2, e3, hok]
  · by_cases h2 : data.flatten.length % data.length = 0
    · by_cases h3 : data.flatten.length / data.length = dim
      · have hok : train_data_ok dim data := ⟨h1, h2, h3⟩
        have hrat : (data.flatten.length : ℚ) / (data.length : ℚ) = (dim : ℚ) :=
          (ratDiv_eq_iff_natDiv _ _ _ h1 h2).mpr h3
        have e1 : train_ivfpq dim data rc =
            if rc ≠ 0 then (Except.error GVError.runtimeError, [NCall.gv_db_ivfpq_train])
            else (Except.ok (), [NCall.gv_db_ivfpq_train]) := by
          simp only [train_ivfpq]
          rw [if_neg h1, if_neg (fun hh => hh h2), if_neg (fun hh => hh h3)]
        have e2 : train_ivfflat dim data rc =
            if rc ≠ 0 then (Except.error GVError.runtimeError, [NCall.gv_db_ivfflat_train])
            else (Except.ok (), [NCall.gv_db_ivfflat_train]) := by
          simp only [train_ivfflat]
          rw [if_neg h1, if_neg (fun hh => hh h2), if_neg (fun hh => hh hrat)]
        have e3 : train_pq dim data rc =
            if rc ≠ 0 then (Except.error GVError.runtimeError, [NCall.gv_db_pq_train])
            else (Except.ok (), [NCall.gv_db_pq_train]) := by
          simp only [train_pq]
          rw [if_neg h1, if_neg (fun hh => hh h2), if_neg (fun hh => hh hrat)]
        refine ⟨?_, ?_, ?_, ?_, ?_, ?_⟩ <;> by_cases hrc : rc = 0
        all_goals first
          | (subst hrc; simp [e1, e2, e3, hok])
          | simp [e1, e2, e3, hok, hrc]
      · have hok : ¬ train_data_ok dim data := fun hh => h3 hh.2.2
        have hrat : ¬ (data.flatten.length : ℚ) / (data.length : ℚ) = (dim : ℚ) :=
          fun hh => h3 ((ratDiv_eq_iff_natDiv _ _ _ h1 h2).mp hh)
        have e1 : train_ivfpq dim data rc = (Except.error GVError.valueError, []) := by
          simp only [train_ivfpq]
          rw [if_neg h1, if_neg (fun hh => hh h2), if_pos h3]
        have e2 : train_ivfflat dim data rc = (Except.error GVError.valueError, []) := by
          simp only [train_ivfflat]
          rw [if_neg h1, if_neg (fun hh => hh h2), if_pos hrat]
        have e3 : train_pq dim data rc = (Except.error GVError.valueError, []) := by
          simp only [train_pq]
          rw [if_neg h1, if_neg (fun hh => hh h2), if_pos hrat]
        refine ⟨?_, ?_, ?_, ?_, ?_, ?_⟩ <;> simp [e1, e2, e3, hok]
    · have hok : ¬ train_data_ok dim data := fun hh => h2 hh.2.1
      have e1 : train_ivfpq dim data rc = (Except.error GVError.valueError, []) := by
        simp only [train_ivfpq]
        rw [if_neg h1, if_pos h2]
      have e2 : train_ivfflat dim data rc = (Except.error GVError.valueError, []) := by
        simp only [train_ivfflat]
        rw [if_neg h1, if_pos h2]
      have e3 : train_pq dim data rc = (Except.error GVError.valueError, []) := by
        simp only [train_pq]
        rw [if_neg h1, if_pos h2]
      refine ⟨?_, ?_, ?_, ?_, ?_, ?_⟩ <;> simp [e1, e2, e3, hok]

/-- C5: with a query of matching dimension, `search` raises
`RuntimeError` exactly when the native search reports a negative
count; a reported count of zero yields the empty list (not an error);
and any non-negative reported count (at most `k` by the native
contract, e.g. when `k` exceeds the live vector count) yields a result
list of at most `k` hits without error. -/
theorem search_reported_results (dim : Nat) (query : List ℚ) (k : Nat)
    (filt : Option (String × String)) (n : Int) (results : List CSearchResult)
    (hq : query.length = dim) (hk : n ≤ (k : Int)) :
    ((search dim query k filt n results).1 = Except.error GVError.runtimeError
      ↔ n < 0)
    ∧ (n = 0 → (search dim query k filt n results).1 = Except.ok [])
    ∧ (¬ n < 0 → ∃ out, (search dim query k filt n results).1 = Except.ok out
        ∧ out.length ≤ k) := by
  have hq' : ¬ query.length ≠ dim := fun hh => hh hq
  by_cases hn : n < 0
  · refine ⟨by simp [search, hq', hn], ?_, fun hh => absurd hn hh⟩
    intro h0
    omega
  · refine ⟨by simp [search, hq', hn], ?_, ?_⟩
    · intro h0
      simp [search, hq', hn, h0]
    · intro _
      refine ⟨(results.take n.toNat).filterMap (copyHit dim),
        by simp [search, hq', hn], ?_⟩
      calc ((results.take n.toNat).filterMap (copyHit dim)).length
          ≤ (results.take n.toNat).length := List.length_filterMap_le _ _
        _ ≤ n.toNat := by
            rw [List.length_take]
            exact Nat.min_le_left _ _
        _ ≤ k := by omega

theorem search_reported_results_witness :
    (List.length [(1 : ℚ), 2] = 2 ∧ (1 : Int) ≤ (3 : Nat))
    ∧ (((search 2 [(1 : ℚ), 2] 3 none 1 []).1 = Except.error GVError.runtimeError
        ↔ (1 : Int) < 0)
      ∧ ((1 : Int) = 0 → (search 2 [(1 : ℚ), 2] 3 none 1 []).1 = Except.ok [])
      ∧ (¬ (1 : Int) < 0 →
          ∃ out, (search 2 [(1 : ℚ), 2] 3 none 1 []).1 = Except.ok out
            ∧ out.length ≤ 3)) :=
  ⟨⟨by decide, by decide⟩,
    search_reported_results 2 [(1 : ℚ), 2] 3 none 1 [] (by decide) (by decide)⟩

/-- C7: `set_deleted_ratio_threshold` and `record_recall` raise
`ValueError` for every argument outside `[0, 1]`, and `range_search`
raises `ValueError` whenever the radius is negative or `max_results`
is non-positive — in each case before (and instead of) any native
call. -/
theorem param_validation_before_native (r s : ℚ) (dim : Nat)
    (query : List ℚ) (radius : ℚ) (max_results : Int)
    (filt : Option (String × String)) (n : Int)
    (results : List CSearchResult)
    (hr : r < 0 ∨ r > 1) (hs : s < 0 ∨ s > 1)
    (hrange : radius < 0 ∨ max_results ≤ 0) :
    set_deleted_ratio_threshold r = (Except.error GVError.valueError, [])
    ∧ record_recall s = (Except.error GVError.valueError, [])
    ∧ range_search dim query radius max_results filt n results
        = (Except.error GVError.valueError, []) := by
  refine ⟨by simp [set_deleted_ratio_threshold, hr],
    by simp [record_recall, hs], ?_⟩
  unfold range_search
  by_cases h1 : query.length ≠ dim
  · rw [if_pos h1]
  · rw [if_neg h1]
    by_cases h2 : radius < 0
    · rw [if_pos h2]
    · rw [if_neg h2]
      have h3 : max_results ≤ 0 := by
        rcases hrange with h | h
        · exact absurd h h2
        · exact h
      rw [if_pos h3]

theorem param_validation_before_native_witness :
    ((2 : ℚ) < 0 ∨ (2 : ℚ) > 1)
    ∧ ((-1 : ℚ) < 0 ∨ (-1 : ℚ) > 1)
    ∧ ((-1 : ℚ) < 0 ∨ (5 : Int) ≤ 0)
    ∧ (set_deleted_ratio_threshold 2 = (Except.error GVError.valueError, [])
      ∧ record_recall (-1) = (Except.error GVError.valueError, [])
      ∧ range_search 1 [] (-1) 5 none 0 []
          = (Except.error GVError.valueError, [])) :=
  ⟨by norm_num, by norm_num, by norm_num,
    param_validation_before_native 2 (-1) 1 [] (-1) 5 none 0 []
      (by norm_num) (by norm_num) (by norm_num)⟩

/-- C10: an empty batch returns `[]` with no native call; a non-empty
batch of matching-dimension queries with a non-negative reported count
makes exactly one `gv_db_search_batch` call and returns exactly
`len(queries)` inner lists of exactly `k` hits each, regardless of the
reported count — unwritten (zero-initialized, NULL-vector) buffer
slots become empty-vector hits — whereas single-query `search` with a
reported count of 0 returns no hits at all. -/
theorem search_batch_shape (dim : Nat) (queries : List (List ℚ)) (k : Nat)
    (n : Int) (results : List CSearchResult)
    (hne : queries ≠ []) (hdim : ∀ q ∈ queries, q.length = dim) (hn : 0 ≤ n) :
    search_batch dim [] k n results = (Except.ok [], [])
    ∧ (search_batch dim queries k n results).2 = [NCall.gv_db_search_batch]
    ∧ (∃ out, (search_batch dim queries k n results).1 = Except.ok out
        ∧ out.length = queries.length
        ∧ ∀ l ∈ out, l.length = k)
    ∧ (search_batch dim queries k n []).1 =
        Except.ok (List.replicate queries.length
          (List.replicate k (SearchHit.mk 0 (Vector.mk [] []))))
    ∧ (∀ q : List ℚ, q.length = dim →
        (search dim q k none 0 results).1 = Except.ok []) := by
  have hemp : queries.isEmpty = false := by
    cases queries with
    | nil => exact absurd rfl hne
    | cons a l => rfl
  have hall : ¬ ∃ x ∈ queries, ¬ x.length = dim := by
    rintro ⟨x, hx, hlen⟩
    exact hlen (hdim x hx)
  have hn' : ¬ n < 0 := Int.not_lt.mpr hn
  refine ⟨by simp [search_batch], ?_, ?_, ?_, ?_⟩
  · simp [search_batch, hemp, hall, hn']
  · refine ⟨(List.range queries.length).map (fun qi =>
      (List.range k).map (fun hi =>
        let res := results.getD (qi * k + hi) zeroResult
        SearchHit.mk res.distance (copy_vector res.vector))), ?_, ?_, ?_⟩
    · simp [search_batch, hemp, hall, hn']
    · simp
    · intro l hl
      rcases List.mem_map.mp hl with ⟨qi, _, rfl⟩
      simp
  · simp [search_batch, hemp, hall, hn', zeroResult, copy_vector,
      List.getD_nil, List.map_const', List.length_range]
  · intro q hq'
    simp [search, hq']

theorem search_batch_shape_witness :
    (([[(1 : ℚ), 2]] : List (List ℚ)) ≠ []
      ∧ (∀ q ∈ ([[(1 : ℚ), 2]] : List (List ℚ)), q.length = 2)
      ∧ (0 : Int) ≤ 0)
    ∧ (search_batch 2 [] 3 0 [] = (Except.ok [], [])
      ∧ (search_batch 2 [[(1 : ℚ), 2]] 3 0 []).2 = [NCall.gv_db_search_batch]
      ∧ (∃ out, (search_batch 2 [[(1 : ℚ), 2]] 3 0 []).1 = Except.ok out
          ∧ out.length = ([[(1 : ℚ), 2]] : List (List ℚ)).length
          ∧ ∀ l ∈ out, l.length = 3)
      ∧ (search_batch 2 [[(1 : ℚ), 2]] 3 0 []).1 =
          Except.ok (List.replicate ([[(1 : ℚ), 2]] : List (List ℚ)).length
            (List.replicate 3 (SearchHit.mk 0 (Vector.mk [] []))))
      ∧ (∀ q : List ℚ, q.length = 2 →
          (search 2 q 3 none 0 []).1 = Except.ok [])) :=
  ⟨⟨by decide, by decide, by decide⟩,
    search_batch_shape 2 [[(1 : ℚ), 2]] 3 0 []
      (by decide) (by decide) (by decide)⟩

end GigaVector
